import Mathlib

/-!
Verification of the credential / session-cache core of the mcp_espn_ff
repository against its natural-language specification.

The development shallow-embeds the relevant Python code:

* `src/mcp_espn_ff/auth.py` — `mask_secret`, `CredentialManager.get`,
  `CredentialManager.set`, `CredentialManager._write_dotenv`,
  `ensure_authenticated`, `authenticate_browser`;
* `src/espn_fantasy_server.py` — `_resolve_session_id`,
  `ESPNFantasyFootballAPI.get_league`, `ESPNFantasyFootballAPI.store_credentials`,
  `_capture_cookies_via_browser`.

Python dictionaries are modelled as association lists, the process
environment as an association list of strings, and Python truthiness of
optional strings is modelled explicitly.  Real time (`time.time()`,
`loop.time()`) is not modelled: the polling deadline of the browser capture
is represented by the finite list of cookie-jar snapshots read before the
deadline elapses, and `AuthState.last_checked` is dropped from the record.
-/

/-- Python truthiness of an `Optional[str]` value: `None` and `""` are falsy. -/
def truthyS : Option String → Bool
  | none => false
  | some s => !(s == "")

/-- Python `x or y` on optional strings: `y` when `x` is falsy. -/
def pyOr (a b : Option String) : Option String :=
  if truthyS a then a else b

/-- Python `x or ""` on an optional string. -/
def pyOrEmpty (a : Option String) : String :=
  if truthyS a then a.getD "" else ""

/-- Lookup in a Python dict modelled as an association list (`d.get(k)` /
`d[k]` where present): the first binding of the key, if any. -/
def dictGet {α : Type} : List (String × α) → String → Option α
  | [], _ => none
  | e :: rest, k => if e.1 == k then some e.2 else dictGet rest k

/-- Python dict assignment `d[k] = v`: replace the key's binding in place,
or append a new binding. -/
def dictSet {α : Type} : List (String × α) → String → α → List (String × α)
  | [], k, v => [(k, v)]
  | e :: rest, k, v => if e.1 == k then (k, v) :: rest else e :: dictSet rest k v

/-- Python `del d[k]` / `d.pop(k)`: drop the key's binding. -/
def dictRemove {α : Type} : List (String × α) → String → List (String × α)
  | [], _ => []
  | e :: rest, k => if e.1 == k then dictRemove rest k else e :: dictRemove rest k

/-- The in-memory credential dict of `CredentialManager`: its values are
`Optional[str]` (the constructor stores `None` under both upper-case keys). -/
abbrev MemMap := List (String × Option String)

/-- The process environment (`os.environ`): string values only. -/
abbrev EnvMap := List (String × String)

/-- `self._memory.get(k)` — `dict.get` returns `None` both when the key is
absent and when the stored value is `None`. -/
def memGet (m : MemMap) (k : String) : Option String :=
  match dictGet m k with
  | some v => v
  | none => none

/-- `os.environ.get(k)`. -/
def envGet (e : EnvMap) (k : String) : Option String := dictGet e k

/-- `CredentialManager.__init__`: `{"ESPN_S2": None, "SWID": None}`. -/
def memInit : MemMap := [("ESPN_S2", none), ("SWID", none)]

/-- `mask_secret` from `auth.py`: empty/absent values map to `""`, values of
length at most `show_last` are fully masked, longer values keep their last
`show_last` characters (`value[-show_last:]`). -/
def mask_secret (value : Option String) (show_last : Nat) : String :=
  match value with
  | none => ""
  | some v =>
    if v == "" then ""
    else if v.length ≤ show_last then List.asString (List.replicate v.length '*')
    else List.asString (List.replicate (v.length - show_last) '*') ++
      List.asString (v.data.drop (v.length - show_last))

/-- `AuthState` from `auth.py`; `last_checked` (a wall-clock read) is omitted,
and the `masked` dict is flattened into its two entries. -/
structure AuthState where
  source : String
  is_valid : Bool
  masked_espn_s2 : String
  masked_swid : String
deriving DecidableEq, Repr

/-- `CredentialManager.get`: resolve each token as memory value `or`
environment value (upper-case name first, then the lower-case alias), infer
the source, and report validity of the resolved pair. -/
def credGet (mem : MemMap) (env : EnvMap) : Option String × Option String × AuthState :=
  let env_espn_s2 := pyOr (envGet env "ESPN_S2") (envGet env "espn_s2")
  let env_swid := pyOr (envGet env "SWID") (envGet env "swid")
  let espn_s2 := pyOr (memGet mem "ESPN_S2") env_espn_s2
  let swid := pyOr (memGet mem "SWID") env_swid
  let source :=
    if truthyS env_espn_s2 && truthyS env_swid then "process_env"
    else if truthyS espn_s2 && truthyS swid then "dot_env"
    else "none"
  let is_valid := truthyS espn_s2 && truthyS swid
  (espn_s2, swid,
    { source := source, is_valid := is_valid,
      masked_espn_s2 := mask_secret espn_s2 4, masked_swid := mask_secret swid 4 })

/-- The `persist_mode` literal of `CredentialManager.set`. -/
inductive Persist where
  | memory
  | env
  | dot_env
deriving DecidableEq, Repr

/-- Python `str.startswith(pre)`, defined over the character lists. -/
def beginsWith : List Char → List Char → Bool
  | [], _ => true
  | _ :: _, [] => false
  | p :: ps, c :: cs => p == c && beginsWith ps cs

/-- `line.startswith(pre)`. -/
def pyStartswith (s pre : String) : Bool := beginsWith pre.data s.data

/-- Python `str.splitlines()` restricted to `"\n"`-separated text (the only
separator this code ever writes): no trailing empty line for a trailing
newline, and the empty string has no lines. -/
def pySplitlines (s : String) : List String :=
  if s == "" then []
  else
    let parts := s.split (fun c => c == '\n')
    if s.endsWith "\n" then parts.dropLast else parts

/-- The loop body of `upsert` inside `_write_dotenv`: replace every line
starting with `key ++ "="` (recording that one was found), and append the
fresh line at the end when none was found. -/
def upsertGo (key value : String) : List String → Bool → List String
  | [], found => if found then [] else [key ++ "=" ++ value]
  | l :: ls, found =>
    if pyStartswith l (key ++ "=") then
      (key ++ "=" ++ value) :: upsertGo key value ls true
    else
      l :: upsertGo key value ls found

/-- `upsert(lines, key, value)` from `_write_dotenv`. -/
def upsert (lines : List String) (key value : String) : List String :=
  upsertGo key value lines false

/-- `CredentialManager._write_dotenv`: read the prior file (no lines when it
does not exist), upsert `ESPN_S2` then `SWID`, and write the lines joined by
`"\n"` with a final trailing newline. -/
def write_dotenv (prior : Option String) (espn_s2 swid : String) : String :=
  let lines0 :=
    match prior with
    | none => []
    | some content => pySplitlines content
  let lines1 := upsert lines0 "ESPN_S2" espn_s2
  let lines2 := upsert lines1 "SWID" swid
  String.intercalate "\n" lines2 ++ "\n"

/-- The mutable state `CredentialManager.set` may touch: the in-memory dict,
the process environment, and the local `.env` file (its whole content, or
`none` when the file does not exist). -/
structure CredState where
  mem : MemMap
  env : EnvMap
  dotenvFile : Option String
deriving DecidableEq, Repr

/-- `CredentialManager.set`: always writes the memory dict — under the keys
`"espn_s2"` (lower-case, as the source does) and `"SWID"` — and for persist
modes `env`/`dot_env` also the process environment (keys `"espn_s2"` and
`"SWID"`); mode `dot_env` additionally rewrites the `.env` file. -/
def credSet (st : CredState) (espn_s2 swid : String) (persist : Persist) : CredState :=
  let mem1 := dictSet (dictSet st.mem "espn_s2" (some espn_s2)) "SWID" (some swid)
  let env1 :=
    match persist with
    | Persist.memory => st.env
    | _ => dictSet (dictSet st.env "espn_s2" espn_s2) "SWID" swid
  let file1 :=
    match persist with
    | Persist.dot_env => some (write_dotenv st.dotenvFile espn_s2 swid)
    | _ => st.dotenvFile
  { mem := mem1, env := env1, dotenvFile := file1 }

/-- `ensure_authenticated` from `auth.py`, with the browser capture result
supplied as an oracle (`browserTokens`).  Returns the triple the Python
function returns, the credential state afterwards, and how many times
`authenticate_browser` was invoked. -/
def ensure_authenticated (st : CredState) (browserTokens : String × String)
    (persist : Persist) : (String × String × AuthState) × CredState × Nat :=
  let r := credGet st.mem st.env
  if r.2.2.is_valid then
    ((pyOrEmpty r.1, pyOrEmpty r.2.1, r.2.2), st, 0)
  else
    let st1 := credSet st browserTokens.1 browserTokens.2 persist
    let r1 := credGet st1.mem st1.env
    ((pyOrEmpty r1.1, pyOrEmpty r1.2.1, r1.2.2), st1, 1)

/-- `_resolve_session_id` from `espn_fantasy_server.py`: the stripped
argument when non-empty, else the first truthy of the two environment
variables, else `"default_session"`. -/
def resolve_session_id (session_id : String) (env : EnvMap) : String :=
  let sid := session_id.trim
  if sid == "" then
    let e := pyOr (envGet env "MCP_SESSION_ID") (envGet env "SESSION_ID")
    if truthyS e then e.getD "" else "default_session"
  else sid

/-- A league object returned by the external API client
(`League(league_id=..., year=..., espn_s2=..., swid=...)`).  The field `hid`
models Python object identity: each constructor call yields a fresh value. -/
structure Handle where
  hid : Nat
  league_id : Nat
  year : Nat
  espn_s2 : Option String
  swid : Option String
deriving DecidableEq, Repr

/-- The mutable state of `ESPNFantasyFootballAPI`: the league cache keyed by
the string `f"{session_id}:{league_id}:{year}"`, the per-session credential
dict, the per-session set of cache keys, and the fresh-identity counter for
`Handle.hid`. -/
structure ApiState where
  leagues : List (String × Handle)
  credentials : List (String × (String × String))
  session_keys : List (String × List String)
  nextId : Nat
deriving DecidableEq, Repr

/-- `ESPNFantasyFootballAPI.__init__`. -/
def apiInit : ApiState :=
  { leagues := [], credentials := [], session_keys := [], nextId := 0 }

/-- The cache key `f"{session_id}:{league_id}:{year}"`. -/
def mkKey (sid : String) (league_id year : Nat) : String :=
  sid ++ ":" ++ Nat.repr league_id ++ ":" ++ Nat.repr year

/-- `self.session_to_league_keys.get(session_id)`, defaulted to the empty
set (the code creates an empty set when the session has no entry). -/
def idxOf (st : ApiState) (sid : String) : List String :=
  (dictGet st.session_keys sid).getD []

/-- `keys.add(cache_key)` on a Python set modelled as a duplicate-free list. -/
def setInsert (l : List String) (k : String) : List String :=
  if k ∈ l then l else l ++ [k]

/-- The indexing step at the end of `get_league`: record the cache key under
its session in `session_to_league_keys`. -/
def indexKey (st : ApiState) (sid key : String) : ApiState :=
  { st with session_keys := dictSet st.session_keys sid (setInsert (idxOf st sid) key) }

/-- `ESPNFantasyFootballAPI.get_league`: look the key up in the cache; on a
miss construct a fresh `League` from the session's stored credentials (absent
session ⇒ `None` tokens) and insert it; in both cases index the key under the
session and return the cached handle. -/
def get_league (st : ApiState) (sid : String) (league_id year : Nat) : Handle × ApiState :=
  let key := mkKey sid league_id year
  let creds := dictGet st.credentials sid
  match dictGet st.leagues key with
  | some h => (h, indexKey st sid key)
  | none =>
    let h : Handle :=
      { hid := st.nextId, league_id := league_id, year := year,
        espn_s2 := creds.map (fun c => c.1), swid := creds.map (fun c => c.2) }
    let st1 := { st with leagues := dictSet st.leagues key h, nextId := st.nextId + 1 }
    (h, indexKey st1 sid key)

/-- Removal of the purged keys from `self.leagues` in `store_credentials`. -/
def removeKeys : List (String × Handle) → List String → List (String × Handle)
  | [], _ => []
  | e :: rest, keys => if e.1 ∈ keys then removeKeys rest keys else e :: removeKeys rest keys

/-- `ESPNFantasyFootballAPI.store_credentials`: store the session's new
tokens, pop the session's key set, and drop every one of those keys from the
league cache. -/
def store_credentials (st : ApiState) (sid espn_s2 swid : String) : ApiState :=
  let keys := idxOf st sid
  { leagues := removeKeys st.leagues keys,
    credentials := dictSet st.credentials sid (espn_s2, swid),
    session_keys := dictRemove st.session_keys sid,
    nextId := st.nextId }

/-- The cache/index invariant of `ESPNFantasyFootballAPI`, maintained by
`get_league` and `store_credentials` from the empty initial state: every
cached key of a session is indexed under that session, every indexed key has
the session's key shape, and every cached handle was built by an earlier
constructor call (`hid < nextId`). -/
def ApiInv (st : ApiState) : Prop :=
  (∀ sid league_id year h, dictGet st.leagues (mkKey sid league_id year) = some h →
      mkKey sid league_id year ∈ idxOf st sid) ∧
  (∀ sid k, k ∈ idxOf st sid → ∃ league_id year, k = mkKey sid league_id year) ∧
  (∀ k h, dictGet st.leagues k = some h → h.hid < st.nextId)

theorem dictGet_nil {α : Type} (k : String) : dictGet ([] : List (String × α)) k = none := rfl

theorem dictGet_dictSet_self {α : Type} (d : List (String × α)) (k : String) (v : α) :
    dictGet (dictSet d k v) k = some v := by
  induction d with
  | nil => simp [dictGet, dictSet]
  | cons e rest ih =>
    by_cases h : e.1 = k
    · simp [dictGet, dictSet, h]
    · simp [dictGet, dictSet, h, ih]

theorem dictGet_dictSet_ne {α : Type} (d : List (String × α)) (k k' : String) (v : α)
    (h : k' ≠ k) : dictGet (dictSet d k v) k' = dictGet d k' := by
  have hk : k ≠ k' := Ne.symm h
  induction d with
  | nil => simp [dictGet, dictSet, hk]
  | cons e rest ih =>
    by_cases he : e.1 = k
    · simp [dictGet, dictSet, he, hk]
    · by_cases he' : e.1 = k'
      · simp [dictGet, dictSet, he, he', h]
      · simp [dictGet, dictSet, he, he', ih]

theorem dictGet_dictRemove_self {α : Type} (d : List (String × α)) (k : String) :
    dictGet (dictRemove d k) k = none := by
  induction d with
  | nil => rfl
  | cons e rest ih =>
    by_cases he : e.1 = k
    · simp [dictRemove, he, ih]
    · simp [dictRemove, dictGet, he, ih]

theorem dictGet_dictRemove_ne {α : Type} (d : List (String × α)) (k k' : String)
    (h : k' ≠ k) : dictGet (dictRemove d k) k' = dictGet d k' := by
  induction d with
  | nil => rfl
  | cons e rest ih =>
    by_cases he : e.1 = k
    · have he' : e.1 ≠ k' := by
        rw [he]
        exact Ne.symm h
      simp [dictRemove, dictGet, he, he', Ne.symm h, ih]
    · simp [dictRemove, dictGet, he, ih]

theorem dictGet_removeKeys (d : List (String × Handle)) (ks : List String) (k : String) :
    dictGet (removeKeys d ks) k = if k ∈ ks then none else dictGet d k := by
  induction d with
  | nil => simp [removeKeys, dictGet]
  | cons e rest ih =>
    by_cases hm : e.1 ∈ ks
    · by_cases he : e.1 = k
      · subst he
        simp [removeKeys, hm, ih]
      · simp [removeKeys, hm, dictGet, he, ih]
    · by_cases he : e.1 = k
      · subst he
        simp [removeKeys, hm, dictGet, ih]
      · simp [removeKeys, hm, dictGet, he, ih]

theorem digitChar_ne_colon (n : Nat) : Nat.digitChar n ≠ ':' := by
  by_cases h : n < 16
  · interval_cases n <;> decide
  · have h16 : Nat.digitChar n = '*' := by
      unfold Nat.digitChar
      have h0 : n ≠ 0 := by omega
      have h1 : n ≠ 1 := by omega
      have h2 : n ≠ 2 := by omega
      have h3 : n ≠ 3 := by omega
      have h4 : n ≠ 4 := by omega
      have h5 : n ≠ 5 := by omega
      have h6 : n ≠ 6 := by omega
      have h7 : n ≠ 7 := by omega
      have h8 : n ≠ 8 := by omega
      have h9 : n ≠ 9 := by omega
      have h10 : n ≠ 10 := by omega
      have h11 : n ≠ 11 := by omega
      have h12 : n ≠ 12 := by omega
      have h13 : n ≠ 13 := by omega
      have h14 : n ≠ 14 := by omega
      have h15 : n ≠ 15 := by omega
      simp [h0, h1, h2, h3, h4, h5, h6, h7, h8, h9, h10, h11, h12, h13, h14, h15]
    rw [h16]
    decide

theorem toDigitsCore_no_colon (b : Nat) (fuel : Nat) :
    ∀ (n : Nat) (ds : List Char), ':' ∉ ds → ':' ∉ Nat.toDigitsCore b fuel n ds := by
  induction fuel with
  | zero =>
    intro n ds hds
    simpa [Nat.toDigitsCore] using hds
  | succ fuel ih =>
    intro n ds hds
    have hd : ':' ∉ Nat.digitChar (n % b) :: ds := by
      intro hmem
      rcases List.mem_cons.mp hmem with h1 | h1
      · exact digitChar_ne_colon (n % b) h1.symm
      · exact hds h1
    simp only [Nat.toDigitsCore]
    split
    · exact hd
    · exact ih (n / b) (Nat.digitChar (n % b) :: ds) hd

theorem repr_no_colon (n : Nat) : ':' ∉ (Nat.repr n).data := by
  have : (Nat.repr n).data = Nat.toDigits 10 n := rfl
  rw [this]
  exact toDigitsCore_no_colon 10 (n + 1) n [] (by simp)

theorem colon_split : ∀ {a1 a2 r1 r2 : List Char}, ':' ∉ a1 → ':' ∉ a2 →
    a1 ++ ':' :: r1 = a2 ++ ':' :: r2 → a1 = a2 ∧ r1 = r2 := by
  intro a1
  induction a1 with
  | nil =>
    intro a2 r1 r2 _ h2 h
    cases a2 with
    | nil =>
      simp only [List.nil_append] at h
      exact ⟨rfl, (List.cons.injEq _ _ _ _ ▸ h).2⟩
    | cons b bs =>
      simp only [List.nil_append, List.cons_append] at h
      have hb : b = ':' := ((List.cons.injEq _ _ _ _ ▸ h).1).symm
      exact absurd (hb ▸ List.mem_cons_self b bs) h2
  | cons a as ih =>
    intro a2 r1 r2 h1 h2 h
    cases a2 with
    | nil =>
      simp only [List.nil_append, List.cons_append] at h
      have ha : a = ':' := (List.cons.injEq _ _ _ _ ▸ h).1
      exact absurd (ha ▸ List.mem_cons_self a as) h1
    | cons b bs =>
      simp only [List.cons_append] at h
      have hab : a = b := (List.cons.injEq _ _ _ _ ▸ h).1
      have htl : as ++ ':' :: r1 = bs ++ ':' :: r2 := (List.cons.injEq _ _ _ _ ▸ h).2
      have h1' : ':' ∉ as := fun hm => h1 (List.mem_cons_of_mem a hm)
      have h2' : ':' ∉ bs := fun hm => h2 (List.mem_cons_of_mem b hm)
      obtain ⟨he, ht⟩ := ih h1' h2' htl
      exact ⟨by rw [hab, he], ht⟩

theorem mkKey_data (sid : String) (league_id year : Nat) :
    (mkKey sid league_id year).data =
      (sid.data ++ ':' :: (Nat.repr league_id).data) ++ ':' :: (Nat.repr year).data := by
  simp [mkKey, String.data_append]

/-- Distinct sessions never share a cache key: the string
`f"{sid}:{league_id}:{year}"` determines the session, because the two
numeric segments contain no `':'`. -/
theorem mkKey_sid_inj {s1 s2 : String} {l1 y1 l2 y2 : Nat}
    (h : mkKey s1 l1 y1 = mkKey s2 l2 y2) : s1 = s2 := by
  have hd : (s1.data ++ ':' :: (Nat.repr l1).data) ++ ':' :: (Nat.repr y1).data =
      (s2.data ++ ':' :: (Nat.repr l2).data) ++ ':' :: (Nat.repr y2).data := by
    rw [← mkKey_data, ← mkKey_data, h]
  have hrev := congrArg List.reverse hd
  simp only [List.reverse_append, List.reverse_cons] at hrev
  have hrev' : (Nat.repr y1).data.reverse ++ ':' ::
      ((Nat.repr l1).data.reverse ++ ':' :: s1.data.reverse) =
      (Nat.repr y2).data.reverse ++ ':' ::
      ((Nat.repr l2).data.reverse ++ ':' :: s2.data.reverse) := by
    simpa [List.append_assoc] using hrev
  have hy1 : ':' ∉ (Nat.repr y1).data.reverse := by
    simpa using repr_no_colon y1
  have hy2 : ':' ∉ (Nat.repr y2).data.reverse := by
    simpa using repr_no_colon y2
  obtain ⟨_, htl⟩ := colon_split hy1 hy2 hrev'
  have hl1 : ':' ∉ (Nat.repr l1).data.reverse := by
    simpa using repr_no_colon l1
  have hl2 : ':' ∉ (Nat.repr l2).data.reverse := by
    simpa using repr_no_colon l2
  obtain ⟨_, hs⟩ := colon_split hl1 hl2 htl
  exact String.ext (by simpa using congrArg List.reverse hs)

theorem mem_setInsert_self (l : List String) (k : String) : k ∈ setInsert l k := by
  by_cases h : k ∈ l <;> simp [setInsert, h]

theorem mem_setInsert_of_mem (l : List String) (k k' : String) (h : k ∈ l) :
    k ∈ setInsert l k' := by
  by_cases h' : k' ∈ l <;> simp [setInsert, h', h]

theorem mem_setInsert_elim (l : List String) (k k' : String) (h : k' ∈ setInsert l k) :
    k' ∈ l ∨ k' = k := by
  by_cases hm : k ∈ l
  · simp only [setInsert, if_pos hm] at h
    exact Or.inl h
  · simp only [setInsert, if_neg hm] at h
    rcases List.mem_append.mp h with h1 | h1
    · exact Or.inl h1
    · exact Or.inr (List.mem_singleton.mp h1)

theorem indexKey_leagues (st : ApiState) (sid key : String) :
    (indexKey st sid key).leagues = st.leagues := rfl

theorem indexKey_nextId (st : ApiState) (sid key : String) :
    (indexKey st sid key).nextId = st.nextId := rfl

theorem idxOf_indexKey (st : ApiState) (sid0 key sid : String) :
    idxOf (indexKey st sid0 key) sid =
      if sid = sid0 then setInsert (idxOf st sid0) key else idxOf st sid := by
  by_cases h : sid = sid0
  · subst h
    simp [indexKey, idxOf, dictGet_dictSet_self]
  · simp [indexKey, idxOf, dictGet_dictSet_ne _ _ _ _ h, h]

/-- The fresh `League` object constructed on a cache miss of `get_league`. -/
def freshHandle (st : ApiState) (sid : String) (league_id year : Nat) : Handle :=
  { hid := st.nextId, league_id := league_id, year := year,
    espn_s2 := (dictGet st.credentials sid).map (fun c => c.1),
    swid := (dictGet st.credentials sid).map (fun c => c.2) }

theorem get_league_eq_hit (st : ApiState) (sid : String) (league_id year : Nat) (h : Handle)
    (hc : dictGet st.leagues (mkKey sid league_id year) = some h) :
    get_league st sid league_id year = (h, indexKey st sid (mkKey sid league_id year)) := by
  simp [get_league, hc]

theorem get_league_eq_miss (st : ApiState) (sid : String) (league_id year : Nat)
    (hc : dictGet st.leagues (mkKey sid league_id year) = none) :
    get_league st sid league_id year =
      (freshHandle st sid league_id year,
        indexKey
          { st with
              leagues := dictSet st.leagues (mkKey sid league_id year)
                (freshHandle st sid league_id year),
              nextId := st.nextId + 1 }
          sid (mkKey sid league_id year)) := by
  simp [get_league, hc, freshHandle]

theorem get_league_cached (st : ApiState) (sid : String) (league_id year : Nat) :
    dictGet (get_league st sid league_id year).2.leagues (mkKey sid league_id year) =
      some (get_league st sid league_id year).1 := by
  cases hc : dictGet st.leagues (mkKey sid league_id year) with
  | some h =>
    rw [get_league_eq_hit st sid league_id year h hc]
    simpa [indexKey_leagues] using hc
  | none =>
    rw [get_league_eq_miss st sid league_id year hc]
    simp [indexKey_leagues, dictGet_dictSet_self]

theorem get_league_mono (st : ApiState) (sid : String) (league_id year : Nat)
    (k : String) (h : Handle) (hk : dictGet st.leagues k = some h) :
    dictGet (get_league st sid league_id year).2.leagues k = some h := by
  cases hc : dictGet st.leagues (mkKey sid league_id year) with
  | some h' =>
    rw [get_league_eq_hit st sid league_id year h' hc]
    simpa [indexKey_leagues] using hk
  | none =>
    rw [get_league_eq_miss st sid league_id year hc]
    have hne : k ≠ mkKey sid league_id year := by
      intro he
      rw [he, hc] at hk
      exact Option.noConfusion hk
    simp [indexKey_leagues, dictGet_dictSet_ne _ _ _ _ hne, hk]

theorem get_league_hit_frame (st : ApiState) (sid : String) (league_id year : Nat) (h : Handle)
    (hc : dictGet st.leagues (mkKey sid league_id year) = some h) :
    (get_league st sid league_id year).1 = h ∧
    (get_league st sid league_id year).2.leagues = st.leagues ∧
    (get_league st sid league_id year).2.nextId = st.nextId := by
  rw [get_league_eq_hit st sid league_id year h hc]
  exact ⟨rfl, rfl, rfl⟩

theorem apiInv_init : ApiInv apiInit := by
  refine ⟨?_, ?_, ?_⟩
  · intro sid league_id year h hget
    exact Option.noConfusion hget
  · intro sid k hk
    simp [apiInit, idxOf, dictGet] at hk
  · intro k h hget
    exact Option.noConfusion hget

theorem idxOf_store (st : ApiState) (S a b sid : String) :
    idxOf (store_credentials st S a b) sid = if sid = S then [] else idxOf st sid := by
  by_cases h : sid = S
  · subst h
    simp [store_credentials, idxOf, dictGet_dictRemove_self]
  · simp [store_credentials, idxOf, dictGet_dictRemove_ne _ _ _ h, h]

theorem store_leagues (st : ApiState) (S a b : String) :
    (store_credentials st S a b).leagues = removeKeys st.leagues (idxOf st S) := rfl

theorem store_nextId (st : ApiState) (S a b : String) :
    (store_credentials st S a b).nextId = st.nextId := rfl

theorem store_credentials_inv (st : ApiState) (S a b : String) (hInv : ApiInv st) :
    ApiInv (store_credentials st S a b) := by
  obtain ⟨h1, h2, h3⟩ := hInv
  refine ⟨?_, ?_, ?_⟩
  · intro sid league_id year h hget
    rw [store_leagues, dictGet_removeKeys] at hget
    by_cases hm : mkKey sid league_id year ∈ idxOf st S
    · rw [if_pos hm] at hget
      exact Option.noConfusion hget
    · rw [if_neg hm] at hget
      have hidx := h1 sid league_id year h hget
      rw [idxOf_store]
      by_cases hs : sid = S
      · exact absurd (hs ▸ hidx) hm
      · rw [if_neg hs]
        exact hidx
  · intro sid k hk
    rw [idxOf_store] at hk
    by_cases hs : sid = S
    · rw [if_pos hs] at hk
      exact absurd hk (List.not_mem_nil k)
    · rw [if_neg hs] at hk
      exact h2 sid k hk
  · intro k h hget
    rw [store_leagues, dictGet_removeKeys] at hget
    by_cases hm : k ∈ idxOf st S
    · rw [if_pos hm] at hget
      exact Option.noConfusion hget
    · rw [if_neg hm] at hget
      rw [store_nextId]
      exact h3 k h hget

theorem get_league_inv (st : ApiState) (sid0 : String) (league_id0 year0 : Nat)
    (hInv : ApiInv st) : ApiInv (get_league st sid0 league_id0 year0).2 := by
  obtain ⟨h1, h2, h3⟩ := hInv
  cases hc : dictGet st.leagues (mkKey sid0 league_id0 year0) with
  | some h =>
    rw [get_league_eq_hit st sid0 league_id0 year0 h hc]
    refine ⟨?_, ?_, ?_⟩
    · intro sid league_id year hh hget
      rw [indexKey_leagues] at hget
      have hidx := h1 sid league_id year hh hget
      rw [idxOf_indexKey]
      by_cases hs : sid = sid0
      · subst hs
        rw [if_pos rfl]
        exact mem_setInsert_of_mem _ _ _ hidx
      · rw [if_neg hs]
        exact hidx
    · intro sid k hk
      rw [idxOf_indexKey] at hk
      by_cases hs : sid = sid0
      · subst hs
        rw [if_pos rfl] at hk
        rcases mem_setInsert_elim _ _ _ hk with hk1 | hk1
        · exact h2 _ k hk1
        · exact ⟨league_id0, year0, hk1⟩
      · rw [if_neg hs] at hk
        exact h2 sid k hk
    · intro k hh hget
      rw [indexKey_leagues] at hget
      rw [indexKey_nextId]
      exact h3 k hh hget
  | none =>
    rw [get_league_eq_miss st sid0 league_id0 year0 hc]
    refine ⟨?_, ?_, ?_⟩
    · intro sid league_id year hh hget
      rw [indexKey_leagues] at hget
      rw [idxOf_indexKey]
      by_cases hkey : mkKey sid league_id year = mkKey sid0 league_id0 year0
      · have hs : sid = sid0 := mkKey_sid_inj hkey
        subst hs
        rw [if_pos rfl, hkey]
        exact mem_setInsert_self _ _
      · rw [dictGet_dictSet_ne _ _ _ _ hkey] at hget
        have hidx := h1 sid league_id year hh hget
        by_cases hs : sid = sid0
        · subst hs
          rw [if_pos rfl]
          exact mem_setInsert_of_mem _ _ _ hidx
        · rw [if_neg hs]
          exact hidx
    · intro sid k hk
      rw [idxOf_indexKey] at hk
      by_cases hs : sid = sid0
      · subst hs
        rw [if_pos rfl] at hk
        rcases mem_setInsert_elim _ _ _ hk with hk1 | hk1
        · exact h2 _ k hk1
        · exact ⟨league_id0, year0, hk1⟩
      · rw [if_neg hs] at hk
        exact h2 sid k hk
    · intro k hh hget
      rw [indexKey_leagues] at hget
      rw [indexKey_nextId]
      by_cases hkey : k = mkKey sid0 league_id0 year0
      · subst hkey
        rw [dictGet_dictSet_self] at hget
        have : hh = freshHandle st sid0 league_id0 year0 := by
          exact (Option.some.injEq _ _ ▸ hget).symm
        rw [this]
        exact Nat.lt_succ_self st.nextId
      · rw [dictGet_dictSet_ne _ _ _ _ hkey] at hget
        exact Nat.lt_succ_of_lt (h3 k hh hget)

/-- C2: cache invalidation on credential rotation with session isolation.
After `store_credentials` replaces session `S`'s tokens, every cached league
of `S` is gone (`dictGet` of any `S`-key is `none`); the next
`get_league(S, L, Y)` therefore builds a handle with the current value of
the identity counter, so it differs from every handle constructed before
the change (all of which, by the invariant, carry a smaller identity) and in
particular from every handle cached before the change; and every cache
entry of any other session `S2 ≠ S` is left unchanged. -/
theorem C2_rotation_invalidation_and_isolation
    (st : ApiState) (S a b S2 : String) (L Y L2 Y2 : Nat)
    (hInv : ApiInv st) (hS2 : S2 ≠ S) :
    dictGet (store_credentials st S a b).leagues (mkKey S L Y) = none ∧
    (get_league (store_credentials st S a b) S L Y).1.hid = st.nextId ∧
    (∀ k hOld, dictGet st.leagues k = some hOld →
      (get_league (store_credentials st S a b) S L Y).1 ≠ hOld) ∧
    dictGet (store_credentials st S a b).leagues (mkKey S2 L2 Y2) =
      dictGet st.leagues (mkKey S2 L2 Y2) := by
  obtain ⟨h1, h2, h3⟩ := hInv
  have purge : dictGet (store_credentials st S a b).leagues (mkKey S L Y) = none := by
    rw [store_leagues, dictGet_removeKeys]
    by_cases hm : mkKey S L Y ∈ idxOf st S
    · rw [if_pos hm]
    · rw [if_neg hm]
      cases hg : dictGet st.leagues (mkKey S L Y) with
      | none => rfl
      | some h => exact absurd (h1 S L Y h hg) hm
  have hfresh : (get_league (store_credentials st S a b) S L Y).1.hid = st.nextId := by
    rw [get_league_eq_miss _ S L Y purge]
    simp [freshHandle, store_nextId]
  refine ⟨purge, hfresh, ?_, ?_⟩
  · intro k hOld hk
    intro he
    have hlt : hOld.hid < st.nextId := h3 k hOld hk
    rw [← he, hfresh] at hlt
    exact absurd hlt (lt_irrefl st.nextId)
  · rw [store_leagues, dictGet_removeKeys]
    have hnot : mkKey S2 L2 Y2 ∉ idxOf st S := by
      intro hm
      obtain ⟨l, y, hk⟩ := h2 S _ hm
      exact hS2 (mkKey_sid_inj hk)
    rw [if_neg hnot]

/-- Closed instance of C2: hypotheses discharged at the empty API state and
the sessions `"bob" ≠ "alice"`. -/
theorem C2_rotation_invalidation_and_isolation_witness :
    ApiInv apiInit ∧ (("bob" : String) ≠ "alice") ∧
    (dictGet (store_credentials apiInit "alice" "s2" "sw").leagues (mkKey "alice" 1 2020) = none ∧
     (get_league (store_credentials apiInit "alice" "s2" "sw") "alice" 1 2020).1.hid =
       apiInit.nextId ∧
     (∀ k hOld, dictGet apiInit.leagues k = some hOld →
       (get_league (store_credentials apiInit "alice" "s2" "sw") "alice" 1 2020).1 ≠ hOld) ∧
     dictGet (store_credentials apiInit "alice" "s2" "sw").leagues (mkKey "bob" 2 2021) =
       dictGet apiInit.leagues (mkKey "bob" 2 2021)) :=
  ⟨apiInv_init, by decide,
    C2_rotation_invalidation_and_isolation apiInit "alice" "s2" "sw" "bob" 1 2020 2 2021
      apiInv_init (by decide)⟩

/-- Lookup in the tuple-keyed league cache of `LeagueService`
(`self._cache: dict[Tuple[int, int], League]`). -/
def cacheGet : List ((Nat × Nat) × Handle) → (Nat × Nat) → Option Handle
  | [], _ => none
  | e :: rest, k => if e.1 = k then some e.2 else cacheGet rest k

/-- Assignment into the tuple-keyed league cache. -/
def cacheSet : List ((Nat × Nat) × Handle) → (Nat × Nat) → Handle → List ((Nat × Nat) × Handle)
  | [], k, v => [(k, v)]
  | e :: rest, k, v => if e.1 = k then (k, v) :: rest else e :: cacheSet rest k v

theorem cacheGet_cacheSet_self (d : List ((Nat × Nat) × Handle)) (k : Nat × Nat) (v : Handle) :
    cacheGet (cacheSet d k v) k = some v := by
  induction d with
  | nil => simp [cacheGet, cacheSet]
  | cons e rest ih =>
    by_cases h : e.1 = k
    · simp [cacheGet, cacheSet, h]
    · simp [cacheGet, cacheSet, h, ih]

theorem cacheGet_cacheSet_ne (d : List ((Nat × Nat) × Handle)) (k k' : Nat × Nat) (v : Handle)
    (h : k' ≠ k) : cacheGet (cacheSet d k v) k' = cacheGet d k' := by
  have hk : k ≠ k' := Ne.symm h
  induction d with
  | nil => simp [cacheGet, cacheSet, hk]
  | cons e rest ih =>
    by_cases he : e.1 = k
    · simp [cacheGet, cacheSet, he, hk]
    · by_cases he' : e.1 = k'
      · simp [cacheGet, cacheSet, he, he', h]
      · simp [cacheGet, cacheSet, he, he', ih]

/-- The mutable state of `LeagueService` (`espn_service.py`): the tuple-keyed
cache, the credential pair the cached handles were built with
(`self._last_creds`), and the fresh-identity counter. -/
structure SvcState where
  cache : List ((Nat × Nat) × Handle)
  last_creds : Option (String × String)
  nextId : Nat
deriving DecidableEq, Repr

/-- `LeagueService.__init__`. -/
def svcInit : SvcState := { cache := [], last_creds := none, nextId := 0 }

/-- `LeagueService.get_league`, with the credentials `ensure_authenticated`
resolved passed as arguments: clear the whole cache when the credentials
changed since the last call, remember the current pair, then serve the
cached handle or construct and cache a fresh one. -/
def svc_get_league (st : SvcState) (espn_s2 swid : String) (league_id year : Nat) :
    Handle × SvcState :=
  let current := (espn_s2, swid)
  let cache1 :=
    match st.last_creds with
    | none => st.cache
    | some lc => if lc ≠ current then [] else st.cache
  let key := (league_id, year)
  match cacheGet cache1 key with
  | some h => (h, { cache := cache1, last_creds := some current, nextId := st.nextId })
  | none =>
    let h : Handle := { hid := st.nextId, league_id := league_id, year := year,
                        espn_s2 := some espn_s2, swid := some swid }
    (h, { cache := cacheSet cache1 key h, last_creds := some current,
          nextId := st.nextId + 1 })

theorem svc_get_league_last_creds (st : SvcState) (a b : String) (league_id year : Nat) :
    (svc_get_league st a b league_id year).2.last_creds = some (a, b) := by
  cases hl : st.last_creds with
  | none =>
    cases hc : cacheGet st.cache (league_id, year) <;>
      simp [svc_get_league, hl, hc]
  | some lc =>
    by_cases hne : lc ≠ (a, b)
    · simp [svc_get_league, hl, hne, cacheGet]
    · cases hc : cacheGet st.cache (league_id, year) <;>
        simp [svc_get_league, hl, hne, hc]

theorem svc_get_league_cached (st : SvcState) (a b : String) (league_id year : Nat) :
    cacheGet (svc_get_league st a b league_id year).2.cache (league_id, year) =
      some (svc_get_league st a b league_id year).1 := by
  unfold svc_get_league
  simp only []
  cases hc : cacheGet
      (match st.last_creds with
        | none => st.cache
        | some lc => if lc ≠ (a, b) then [] else st.cache) (league_id, year) with
  | some h => simpa using hc
  | none => simp [cacheGet_cacheSet_self]

theorem svc_hit_same_creds (st1 : SvcState) (a b : String) (league_id year : Nat)
    (h1 : Handle) (hlast : st1.last_creds = some (a, b))
    (hcached : cacheGet st1.cache (league_id, year) = some h1) :
    svc_get_league st1 a b league_id year =
      (h1, { cache := st1.cache, last_creds := some (a, b), nextId := st1.nextId }) := by
  simp [svc_get_league, hlast, hcached]

theorem svc_second_call (svc : SvcState) (a b : String) (league_id year : Nat) :
    svc_get_league (svc_get_league svc a b league_id year).2 a b league_id year =
      ((svc_get_league svc a b league_id year).1,
       { cache := (svc_get_league svc a b league_id year).2.cache,
         last_creds := some (a, b),
         nextId := (svc_get_league svc a b league_id year).2.nextId }) :=
  svc_hit_same_creds _ a b league_id year _
    (svc_get_league_last_creds svc a b league_id year)
    (svc_get_league_cached svc a b league_id year)

theorem svc_read_preserves (svc : SvcState) (a b : String) (league_id year : Nat)
    (k : Nat × Nat) (h : Handle) (hlast : svc.last_creds = some (a, b))
    (hk : cacheGet svc.cache k = some h) :
    cacheGet (svc_get_league svc a b league_id year).2.cache k = some h := by
  cases hc : cacheGet svc.cache (league_id, year) with
  | some h' => simp [svc_get_league, hlast, hc, hk]
  | none =>
    have hne : k ≠ (league_id, year) := by
      intro he
      rw [he, hc] at hk
      exact Option.noConfusion hk
    simp [svc_get_league, hlast, hc, cacheGet_cacheSet_ne _ _ _ _ hne, hk]

/-- C5: cache-hit idempotence, for both league caches.  In
`ESPNFantasyFootballAPI.get_league` an immediately repeated
`get_league(S, L, Y)` (no credential change in between) returns the very
same handle without constructing a new `League` (the identity counter does
not move), and a `get_league` read never removes any cache entry.  In
`LeagueService.get_league` a repeated call with the same credentials
likewise returns the same handle without constructing, and a read with
unchanged credentials never removes any cache entry. -/
theorem C5_cache_hit_idempotence (st : ApiState) (sid : String) (league_id year : Nat)
    (svc : SvcState) (a b : String) :
    (get_league (get_league st sid league_id year).2 sid league_id year).1 =
      (get_league st sid league_id year).1 ∧
    (get_league (get_league st sid league_id year).2 sid league_id year).2.nextId =
      (get_league st sid league_id year).2.nextId ∧
    (∀ k h, dictGet st.leagues k = some h →
      dictGet (get_league st sid league_id year).2.leagues k = some h) ∧
    (svc_get_league (svc_get_league svc a b league_id year).2 a b league_id year).1 =
      (svc_get_league svc a b league_id year).1 ∧
    (svc_get_league (svc_get_league svc a b league_id year).2 a b league_id year).2.nextId =
      (svc_get_league svc a b league_id year).2.nextId ∧
    (∀ k h, svc.last_creds = some (a, b) → cacheGet svc.cache k = some h →
      cacheGet (svc_get_league svc a b league_id year).2.cache k = some h) := by
  have hcached := get_league_cached st sid league_id year
  have hframe := get_league_hit_frame _ sid league_id year _ hcached
  have hsecond := svc_second_call svc a b league_id year
  refine ⟨hframe.1, hframe.2.2,
    fun k h hk => get_league_mono st sid league_id year k h hk,
    ?_, ?_,
    fun k h hlast hk => svc_read_preserves svc a b league_id year k h hlast hk⟩
  · rw [hsecond]
  · rw [hsecond]

/-- Closed instance of C5: the repeated calls at the empty caches. -/
theorem C5_cache_hit_idempotence_witness :
    (get_league (get_league apiInit "alice" 1 2020).2 "alice" 1 2020).1 =
      (get_league apiInit "alice" 1 2020).1 ∧
    (get_league (get_league apiInit "alice" 1 2020).2 "alice" 1 2020).2.nextId =
      (get_league apiInit "alice" 1 2020).2.nextId ∧
    (∀ k h, dictGet apiInit.leagues k = some h →
      dictGet (get_league apiInit "alice" 1 2020).2.leagues k = some h) ∧
    (svc_get_league (svc_get_league svcInit "sa" "sb" 1 2020).2 "sa" "sb" 1 2020).1 =
      (svc_get_league svcInit "sa" "sb" 1 2020).1 ∧
    (svc_get_league (svc_get_league svcInit "sa" "sb" 1 2020).2 "sa" "sb" 1 2020).2.nextId =
      (svc_get_league svcInit "sa" "sb" 1 2020).2.nextId ∧
    (∀ k h, svcInit.last_creds = some ("sa", "sb") → cacheGet svcInit.cache k = some h →
      cacheGet (svc_get_league svcInit "sa" "sb" 1 2020).2.cache k = some h) :=
  C5_cache_hit_idempotence apiInit "alice" 1 2020 svcInit "sa" "sb"

theorem asString_append (l1 l2 : List Char) :
    List.asString l1 ++ List.asString l2 = List.asString (l1 ++ l2) := rfl

theorem truthyS_iff (o : Option String) :
    truthyS o = true ↔ ∃ x, o = some x ∧ x ≠ "" := by
  cases o <;> simp [truthyS]

theorem truthyS_getD_ne (o : Option String) (h : truthyS o = true) : o.getD "" ≠ "" := by
  obtain ⟨x, hx, hne⟩ := (truthyS_iff o).mp h
  rw [hx]
  exact hne

theorem credGet_is_valid (mem : MemMap) (env : EnvMap) :
    (credGet mem env).2.2.is_valid =
      (truthyS (credGet mem env).1 && truthyS (credGet mem env).2.1) := rfl

/-- C1 (the claim is right, the code is a slip): after
`set("AAAA", "BBBB", persist_mode="memory")` on a fresh manager with an empty
process environment, the memory dict does hold `"AAAA"` — but under the
lower-case key `"espn_s2"`, while `get` reads `"ESPN_S2"` (the key the
constructor initialises).  `get` therefore resolves `espn_s2` to `None` and
reports `is_valid = false`, so the set/get round trip fails for persist mode
`memory`. -/
theorem C1_memory_roundtrip_fails :
    memGet (credSet { mem := memInit, env := [], dotenvFile := none }
      "AAAA" "BBBB" Persist.memory).mem "espn_s2" = some "AAAA" ∧
    memGet (credSet { mem := memInit, env := [], dotenvFile := none }
      "AAAA" "BBBB" Persist.memory).mem "ESPN_S2" = none ∧
    (credGet (credSet { mem := memInit, env := [], dotenvFile := none }
        "AAAA" "BBBB" Persist.memory).mem
      (credSet { mem := memInit, env := [], dotenvFile := none }
        "AAAA" "BBBB" Persist.memory).env).1 = none ∧
    (credGet (credSet { mem := memInit, env := [], dotenvFile := none }
        "AAAA" "BBBB" Persist.memory).mem
      (credSet { mem := memInit, env := [], dotenvFile := none }
        "AAAA" "BBBB" Persist.memory).env).2.2.is_valid = false := by
  decide

/-- C6: the fast path of the coordinator.  When the stored credentials are
valid, `ensure_authenticated` returns them unchanged, leaves the whole
credential state untouched, and performs zero `authenticate_browser`
invocations. -/
theorem C6_fast_path (st : CredState) (browserTokens : String × String) (persist : Persist)
    (hvalid : (credGet st.mem st.env).2.2.is_valid = true) :
    ensure_authenticated st browserTokens persist =
      ((pyOrEmpty (credGet st.mem st.env).1, pyOrEmpty (credGet st.mem st.env).2.1,
        (credGet st.mem st.env).2.2), st, 0) := by
  simp [ensure_authenticated, hvalid]

/-- A credential state whose environment already carries both tokens. -/
def c6State : CredState :=
  { mem := memInit, env := [("ESPN_S2", "AAAA"), ("SWID", "BBBB")], dotenvFile := none }

/-- Closed instance of C6 at `c6State`. -/
theorem C6_fast_path_witness :
    (credGet c6State.mem c6State.env).2.2.is_valid = true ∧
    ensure_authenticated c6State ("X", "Y") Persist.env =
      ((pyOrEmpty (credGet c6State.mem c6State.env).1,
        pyOrEmpty (credGet c6State.mem c6State.env).2.1,
        (credGet c6State.mem c6State.env).2.2), c6State, 0) :=
  ⟨by decide, C6_fast_path c6State ("X", "Y") Persist.env (by decide)⟩

/-- C7: partial credentials are never valid.  `is_valid` is `true` exactly
when both resolved tokens are present and non-empty; in particular when
exactly one of the two is truthy, `is_valid` is `false`. -/
theorem C7_partial_never_valid (mem : MemMap) (env : EnvMap) :
    ((credGet mem env).2.2.is_valid = true ↔
      ((∃ x, (credGet mem env).1 = some x ∧ x ≠ "") ∧
       (∃ y, (credGet mem env).2.1 = some y ∧ y ≠ ""))) ∧
    (truthyS (credGet mem env).1 ≠ truthyS (credGet mem env).2.1 →
      (credGet mem env).2.2.is_valid = false) := by
  constructor
  · rw [credGet_is_valid, Bool.and_eq_true, truthyS_iff, truthyS_iff]
  · intro hne
    rw [credGet_is_valid]
    cases ha : truthyS (credGet mem env).1 <;> cases hb : truthyS (credGet mem env).2.1
    · rfl
    · rfl
    · rfl
    · rw [ha, hb] at hne
      exact absurd rfl hne

/-- C9: the masking rule of `mask_secret`.  A token of length at most 4 is
replaced by one mask character per input character; a longer token keeps
exactly its last 4 characters, every preceding character replaced by the
mask character. -/
theorem C9_masking_rule (v : String) :
    (v.length ≤ 4 → mask_secret (some v) 4 = List.asString (List.replicate v.length '*')) ∧
    (4 < v.length → mask_secret (some v) 4 =
      List.asString (List.replicate (v.length - 4) '*' ++ v.data.drop (v.length - 4))) := by
  constructor
  · intro hle
    by_cases hv : v = ""
    · subst hv
      rfl
    · simp [mask_secret, hv, hle]
  · intro hgt
    have hv : ¬ v = "" := by
      intro hv
      rw [hv] at hgt
      exact absurd hgt (by decide)
    have hle : ¬ v.length ≤ 4 := Nat.not_le_of_lt hgt
    simp only [mask_secret, hv, hle, if_false, if_neg, beq_iff_eq]
    rw [asString_append]

/-- C10: implicit default-session collapse.  `_resolve_session_id` never
returns the empty string, and when the argument is empty or whitespace-only
and neither session environment variable is set, it returns the fixed
string `"default_session"`. -/
theorem C10_default_session (arg : String) (env : EnvMap) :
    resolve_session_id arg env ≠ "" ∧
    (arg.trim = "" → envGet env "MCP_SESSION_ID" = none → envGet env "SESSION_ID" = none →
      resolve_session_id arg env = "default_session") := by
  constructor
  · by_cases h : arg.trim = ""
    · simp only [resolve_session_id, h, if_pos, beq_self_eq_true]
      cases he : truthyS (pyOr (envGet env "MCP_SESSION_ID") (envGet env "SESSION_ID"))
      · simp [he]
      · simp only [he, if_true]
        exact truthyS_getD_ne _ he
    · simp only [resolve_session_id]
      rw [if_neg (by simpa using h)]
      exact h
  · intro h h1 h2
    have h1' : dictGet env "MCP_SESSION_ID" = none := h1
    have h2' : dictGet env "SESSION_ID" = none := h2
    simp [resolve_session_id, h, pyOr, envGet, h1', h2', truthyS]

theorem beginsWith_cons_ne {q c : Char} (qs cs : List Char) (h : q ≠ c) :
    beginsWith (q :: qs) (c :: cs) = false := by
  simp [beginsWith, h]

theorem beginsWith_false_of_head_ne {p q : Char} (ps qs l : List Char)
    (hpq : p ≠ q) (h : beginsWith (p :: ps) l = true) : beginsWith (q :: qs) l = false := by
  cases l with
  | nil => simp [beginsWith] at h
  | cons c cs =>
    simp only [beginsWith, Bool.and_eq_true, beq_iff_eq] at h
    exact beginsWith_cons_ne qs cs (h.1 ▸ Ne.symm hpq)

theorem espn_line_not_swid (a : String) :
    pyStartswith ("ESPN_S2=" ++ a) "SWID=" = false := by
  have hd : ("ESPN_S2=" ++ a).data = 'E' :: ("SPN_S2=".data ++ a.data) := by
    rw [String.data_append]
    have he : ("ESPN_S2=" : String).data = 'E' :: ("SPN_S2=" : String).data := by decide
    rw [he]
    rfl
  have hs : ("SWID=" : String).data = 'S' :: ("WID=" : String).data := by decide
  rw [pyStartswith, hd, hs]
  exact beginsWith_cons_ne _ _ (by decide)

theorem espn_implies_not_swid (l : String) (h : pyStartswith l "ESPN_S2=" = true) :
    pyStartswith l "SWID=" = false := by
  have he : ("ESPN_S2=" : String).data = 'E' :: ("SPN_S2=" : String).data := by decide
  have hs : ("SWID=" : String).data = 'S' :: ("WID=" : String).data := by decide
  rw [pyStartswith, he] at h
  rw [pyStartswith, hs]
  exact beginsWith_false_of_head_ne _ _ _ (by decide) h

theorem upsertGo_eq (key v : String) (lines : List String) : ∀ (found : Bool),
    upsertGo key v lines found =
      lines.map (fun l => if pyStartswith l (key ++ "=") then key ++ "=" ++ v else l) ++
      (if found || lines.any (fun l => pyStartswith l (key ++ "=")) then []
       else [key ++ "=" ++ v]) := by
  induction lines with
  | nil =>
    intro found
    cases found <;> simp [upsertGo]
  | cons l ls ih =>
    intro found
    by_cases hl : pyStartswith l (key ++ "=") = true
    · simp [upsertGo, hl, ih true]
    · have hl' : pyStartswith l (key ++ "=") = false := by
        cases hp : pyStartswith l (key ++ "=")
        · rfl
        · exact absurd hp hl
      simp [upsertGo, hl', ih found]

theorem upsert_eq (lines : List String) (key v : String) :
    upsert lines key v =
      lines.map (fun l => if pyStartswith l (key ++ "=") then key ++ "=" ++ v else l) ++
      (if lines.any (fun l => pyStartswith l (key ++ "=")) then [] else [key ++ "=" ++ v]) := by
  rw [upsert, upsertGo_eq]
  simp

/-- The lines of the prior `.env` file (none when the file does not exist). -/
def priorLines : Option String → List String
  | none => []
  | some content => pySplitlines content

/-- The claim's line transformation: a line for the `ESPN_S2` key is replaced
in place by the new `ESPN_S2` line, a line for the `SWID` key by the new
`SWID` line, and every other line is kept unchanged. -/
def credReplaceLine (a b l : String) : String :=
  if pyStartswith l "ESPN_S2=" then "ESPN_S2=" ++ a
  else if pyStartswith l "SWID=" then "SWID=" ++ b
  else l

theorem write_dotenv_eq (prior : Option String) (a b : String) :
    write_dotenv prior a b =
      String.intercalate "\n" (upsert (upsert (priorLines prior) "ESPN_S2" a) "SWID" b)
        ++ "\n" := by
  cases prior <;> rfl

theorem credReplaceLine_comp (a b l : String) :
    (fun l => if pyStartswith l "SWID=" then "SWID=" ++ b else l)
      ((fun l => if pyStartswith l "ESPN_S2=" then "ESPN_S2=" ++ a else l) l) =
    credReplaceLine a b l := by
  cases hE : pyStartswith l "ESPN_S2=" with
  | true => simp [hE, credReplaceLine, espn_line_not_swid a]
  | false => simp [hE, credReplaceLine]

theorem swid_pred_after_espn (a l : String) :
    pyStartswith ((fun l => if pyStartswith l "ESPN_S2=" then "ESPN_S2=" ++ a else l) l)
      "SWID=" = pyStartswith l "SWID=" := by
  cases hE : pyStartswith l "ESPN_S2=" with
  | true => simp [hE, espn_line_not_swid a, espn_implies_not_swid l hE]
  | false => simp [hE]

/-- C8: the `.env` upsert.  `_write_dotenv` maps every prior line through the
in-place replacement (`ESPN_S2=`-lines become the fresh `ESPN_S2` line,
`SWID=`-lines the fresh `SWID` line, all other lines stay unchanged and in
order), appends an `ESPN_S2` / `SWID` line only when no prior line carried
that key, joins with `"\n"`, and terminates the file with a trailing
newline; a missing file (`prior = none`) yields exactly the two fresh
lines. -/
theorem C8_file_upsert (prior : Option String) (a b : String) :
    write_dotenv prior a b =
      String.intercalate "\n"
        ((priorLines prior).map (credReplaceLine a b) ++
          (if (priorLines prior).any (fun l => pyStartswith l "ESPN_S2=") then []
           else ["ESPN_S2=" ++ a]) ++
          (if (priorLines prior).any (fun l => pyStartswith l "SWID=") then []
           else ["SWID=" ++ b])) ++ "\n" := by
  rw [write_dotenv_eq]
  rw [upsert_eq, upsert_eq]
  have e1 : ("ESPN_S2" : String) ++ "=" = "ESPN_S2=" := rfl
  have e2 : ("SWID" : String) ++ "=" = "SWID=" := rfl
  rw [e1, e2]
  rw [List.map_append, List.map_map]
  have hmapped :
      (priorLines prior).map
        ((fun l => if pyStartswith l "SWID=" then "SWID=" ++ b else l) ∘
          (fun l => if pyStartswith l "ESPN_S2=" then "ESPN_S2=" ++ a else l)) =
      (priorLines prior).map (credReplaceLine a b) := by
    have hfun :
        ((fun l => if pyStartswith l "SWID=" then "SWID=" ++ b else l) ∘
          (fun l => if pyStartswith l "ESPN_S2=" then "ESPN_S2=" ++ a else l)) =
        credReplaceLine a b := funext (fun l => credReplaceLine_comp a b l)
    rw [hfun]
  rw [hmapped]
  have happE :
      (if (priorLines prior).any (fun l => pyStartswith l "ESPN_S2=") then ([] : List String)
       else ["ESPN_S2=" ++ a]).map
        (fun l => if pyStartswith l "SWID=" then "SWID=" ++ b else l) =
      (if (priorLines prior).any (fun l => pyStartswith l "ESPN_S2=") then ([] : List String)
       else ["ESPN_S2=" ++ a]) := by
    by_cases hc : (priorLines prior).any (fun l => pyStartswith l "ESPN_S2=") = true
    · rw [if_pos hc]
      rfl
    · rw [if_neg hc]
      simp [espn_line_not_swid a]
  rw [happE]
  have hany :
      ((priorLines prior).map
          (fun l => if pyStartswith l "ESPN_S2=" then "ESPN_S2=" ++ a else l) ++
        (if (priorLines prior).any (fun l => pyStartswith l "ESPN_S2=") then ([] : List String)
         else ["ESPN_S2=" ++ a])).any (fun l => pyStartswith l "SWID=") =
      (priorLines prior).any (fun l => pyStartswith l "SWID=") := by
    rw [List.any_append, List.any_map]
    have hfun2 :
        ((fun l => pyStartswith l "SWID=") ∘
          (fun l => if pyStartswith l "ESPN_S2=" then "ESPN_S2=" ++ a else l)) =
        (fun l => pyStartswith l "SWID=") :=
      funext (fun l => swid_pred_after_espn a l)
    rw [hfun2]
    have happany :
        (if (priorLines prior).any (fun l => pyStartswith l "ESPN_S2=") then ([] : List String)
         else ["ESPN_S2=" ++ a]).any (fun l => pyStartswith l "SWID=") = false := by
      by_cases hc : (priorLines prior).any (fun l => pyStartswith l "ESPN_S2=") = true
      · rw [if_pos hc]
        rfl
      · rw [if_neg hc]
        simp [espn_line_not_swid a]
    rw [happany, Bool.or_false]
  rw [hany, List.append_assoc]

/-- The control state of one `ensure_authenticated` call, cut at its await
points: the initial synchronous `get` + validity check, the wait on the
process-wide `_auth_lock`, the browser capture performed while holding the
lock, the lock release at the end of `authenticate_browser`, and the final
synchronous `set` + `get` + return. -/
inductive TaskState where
  | start
  | waitLock
  | capturing
  | releasing (s2 swid : String)
  | writing (s2 swid : String)
  | finished (s2 swid : String)
deriving DecidableEq, Repr

/-- The shared state of two concurrent `ensure_authenticated` calls: the
global `CredentialManager` (+ process environment), the `_auth_lock`, the
number of completed browser captures, and the two task states. -/
structure Sys where
  cred : CredState
  lock : Bool
  captures : Nat
  t0 : TaskState
  t1 : TaskState
deriving DecidableEq, Repr

/-- One atomic step of a single task.  `oracle n` is the token pair produced
by the `n`-th browser capture (captures are serialized under the lock, so
the count is well defined).  A task blocked on a held lock does not move. -/
def taskStep (oracle : Nat → String × String) (cred : CredState) (lock : Bool)
    (captures : Nat) : TaskState → TaskState × CredState × Bool × Nat
  | TaskState.start =>
    let r := credGet cred.mem cred.env
    if r.2.2.is_valid then
      (TaskState.finished (pyOrEmpty r.1) (pyOrEmpty r.2.1), cred, lock, captures)
    else
      (TaskState.waitLock, cred, lock, captures)
  | TaskState.waitLock =>
    if lock then (TaskState.waitLock, cred, lock, captures)
    else (TaskState.capturing, cred, true, captures)
  | TaskState.capturing =>
    let tk := oracle captures
    (TaskState.releasing tk.1 tk.2, cred, lock, captures + 1)
  | TaskState.releasing a b => (TaskState.writing a b, cred, false, captures)
  | TaskState.writing a b =>
    let cred1 := credSet cred a b Persist.env
    let r := credGet cred1.mem cred1.env
    (TaskState.finished (pyOrEmpty r.1) (pyOrEmpty r.2.1), cred1, lock, captures)
  | TaskState.finished a b => (TaskState.finished a b, cred, lock, captures)

/-- Scheduler step: `false` steps task 0, `true` steps task 1. -/
def sysStep (oracle : Nat → String × String) (s : Sys) (choose : Bool) : Sys :=
  if choose then
    let r := taskStep oracle s.cred s.lock s.captures s.t1
    { cred := r.2.1, lock := r.2.2.1, captures := r.2.2.2, t0 := s.t0, t1 := r.1 }
  else
    let r := taskStep oracle s.cred s.lock s.captures s.t0
    { cred := r.2.1, lock := r.2.2.1, captures := r.2.2.2, t0 := r.1, t1 := s.t1 }

/-- Run a schedule (a list of scheduler choices). -/
def sysRun (oracle : Nat → String × String) : Sys → List Bool → Sys
  | s, [] => s
  | s, c :: cs => sysRun oracle (sysStep oracle s c) cs

/-- Both tasks start `ensure_authenticated` with no credentials stored
anywhere. -/
def sysInit : Sys :=
  { cred := { mem := memInit, env := [], dotenvFile := none },
    lock := false, captures := 0, t0 := TaskState.start, t1 := TaskState.start }

/-- A task holds `_auth_lock` from its acquisition until its release step. -/
def holdsLock : TaskState → Bool
  | TaskState.capturing => true
  | TaskState.releasing _ _ => true
  | _ => false

/-- Mutual exclusion: never do both tasks hold the lock, and a free lock
means nobody holds it. -/
def MutexInv (s : Sys) : Prop :=
  ¬(holdsLock s.t0 = true ∧ holdsLock s.t1 = true) ∧
  (s.lock = false → holdsLock s.t0 = false ∧ holdsLock s.t1 = false)

/-- The tokens a finished task returned, if it is finished. -/
def taskResult : TaskState → Option (String × String)
  | TaskState.finished a b => some (a, b)
  | _ => none

/-- Browser capture oracle for the concrete two-task run: the first capture
observes the pair `("A1", "B1")`, the second `("A2", "B2")`. -/
def c3oracle : Nat → String × String :=
  fun n => if n == 0 then ("A1", "B1") else ("A2", "B2")

/-- The schedule in which both callers pass their validity check before any
capture finishes: task 0 checks, task 1 checks, task 0 runs to completion,
task 1 runs to completion. -/
def c3sched : List Bool :=
  [false, true, false, false, false, false, true, true, true, true]

theorem sysStep_mutex (oracle : Nat → String × String) (s : Sys) (c : Bool)
    (h : MutexInv s) : MutexInv (sysStep oracle s c) := by
  obtain ⟨h1, h2⟩ := h
  cases c with
  | false =>
    cases ht : s.t0 with
    | start =>
      by_cases hv : (credGet s.cred.mem s.cred.env).2.2.is_valid = true
      · refine ⟨?_, ?_⟩
        · simp [sysStep, taskStep, ht, hv, holdsLock]
        · intro hl
          simp only [sysStep, taskStep, ht, hv, if_true] at hl ⊢
          exact ⟨by simp [holdsLock], (h2 (by simpa using hl)).2⟩
      · have hv' : (credGet s.cred.mem s.cred.env).2.2.is_valid = false :=
          Bool.eq_false_iff.mpr hv
        refine ⟨?_, ?_⟩
        · simp [sysStep, taskStep, ht, hv', holdsLock]
        · intro hl
          simp only [sysStep, taskStep, ht, hv'] at hl ⊢
          exact ⟨by simp [holdsLock], (h2 (by simpa using hl)).2⟩
    | waitLock =>
      by_cases hl : s.lock = true
      · refine ⟨?_, ?_⟩
        · simp [sysStep, taskStep, ht, hl, holdsLock]
        · intro hfree
          simp only [sysStep, taskStep, ht, hl, if_true] at hfree ⊢
          exact absurd hfree (by simp [hl])
      · have hl' : s.lock = false := Bool.eq_false_iff.mpr hl
        refine ⟨?_, ?_⟩
        · simp only [sysStep, taskStep, ht, hl', if_false]
          intro hh
          exact absurd hh.2 (by simp [(h2 hl').2])
        · intro hfree
          simp only [sysStep, taskStep, ht, hl', if_false] at hfree
          exact absurd hfree (by simp)
    | capturing =>
      refine ⟨?_, ?_⟩
      · simp only [sysStep, taskStep, ht]
        intro hh
        exact absurd ⟨by simp [ht, holdsLock], hh.2⟩ h1
      · intro hfree
        simp only [sysStep, taskStep, ht] at hfree
        have := (h2 (by simpa using hfree)).1
        rw [ht] at this
        exact absurd this (by simp [holdsLock])
    | releasing a b =>
      refine ⟨?_, ?_⟩
      · simp [sysStep, taskStep, ht, holdsLock]
      · intro hfree
        refine ⟨by simp [sysStep, taskStep, ht, holdsLock], ?_⟩
        have ht1 : holdsLock s.t1 = false := by
          cases hh : holdsLock s.t1
          · rfl
          · exact absurd ⟨by simp [ht, holdsLock], hh⟩ h1
        simpa [sysStep, taskStep, ht] using ht1
    | writing a b =>
      refine ⟨?_, ?_⟩
      · simp [sysStep, taskStep, ht, holdsLock]
      · intro hfree
        simp only [sysStep, taskStep, ht] at hfree ⊢
        exact ⟨by simp [holdsLock], (h2 (by simpa using hfree)).2⟩
    | finished a b =>
      refine ⟨?_, ?_⟩
      · simp [sysStep, taskStep, ht, holdsLock]
      · intro hfree
        simp only [sysStep, taskStep, ht] at hfree ⊢
        exact ⟨by simp [holdsLock], (h2 (by simpa using hfree)).2⟩
  | true =>
    cases ht : s.t1 with
    | start =>
      by_cases hv : (credGet s.cred.mem s.cred.env).2.2.is_valid = true
      · refine ⟨?_, ?_⟩
        · simp [sysStep, taskStep, ht, hv, holdsLock]
        · intro hl
          simp only [sysStep, taskStep, ht, hv, if_true] at hl ⊢
          exact ⟨(h2 (by simpa using hl)).1, by simp [holdsLock]⟩
      · have hv' : (credGet s.cred.mem s.cred.env).2.2.is_valid = false :=
          Bool.eq_false_iff.mpr hv
        refine ⟨?_, ?_⟩
        · simp [sysStep, taskStep, ht, hv', holdsLock]
        · intro hl
          simp only [sysStep, taskStep, ht, hv'] at hl ⊢
          exact ⟨(h2 (by simpa using hl)).1, by simp [holdsLock]⟩
    | waitLock =>
      by_cases hl : s.lock = true
      · refine ⟨?_, ?_⟩
        · simp [sysStep, taskStep, ht, hl, holdsLock]
        · intro hfree
          simp only [sysStep, taskStep, ht, hl, if_true] at hfree ⊢
          exact absurd hfree (by simp [hl])
      · have hl' : s.lock = false := Bool.eq_false_iff.mpr hl
        refine ⟨?_, ?_⟩
        · simp only [sysStep, taskStep, ht, hl', if_false]
          intro hh
          exact absurd hh.1 (by simp [(h2 hl').1])
        · intro hfree
          simp only [sysStep, taskStep, ht, hl', if_false] at hfree
          exact absurd hfree (by simp)
    | capturing =>
      refine ⟨?_, ?_⟩
      · simp only [sysStep, taskStep, ht]
        intro hh
        exact absurd ⟨hh.1, by simp [ht, holdsLock]⟩ h1
      · intro hfree
        simp only [sysStep, taskStep, ht] at hfree
        have := (h2 (by simpa using hfree)).2
        rw [ht] at this
        exact absurd this (by simp [holdsLock])
    | releasing a b =>
      refine ⟨?_, ?_⟩
      · simp [sysStep, taskStep, ht, holdsLock]
      · intro hfree
        refine ⟨?_, by simp [sysStep, taskStep, ht, holdsLock]⟩
        have ht0 : holdsLock s.t0 = false := by
          cases hh : holdsLock s.t0
          · rfl
          · exact absurd ⟨hh, by simp [ht, holdsLock]⟩ h1
        simpa [sysStep, taskStep, ht] using ht0
    | writing a b =>
      refine ⟨?_, ?_⟩
      · simp [sysStep, taskStep, ht, holdsLock]
      · intro hfree
        simp only [sysStep, taskStep, ht] at hfree ⊢
        exact ⟨(h2 (by simpa using hfree)).1, by simp [holdsLock]⟩
    | finished a b =>
      refine ⟨?_, ?_⟩
      · simp [sysStep, taskStep, ht, holdsLock]
      · intro hfree
        simp only [sysStep, taskStep, ht] at hfree ⊢
        exact ⟨(h2 (by simpa using hfree)).1, by simp [holdsLock]⟩

theorem mutexInv_init : MutexInv sysInit := by
  refine ⟨?_, ?_⟩
  · simp [sysInit, holdsLock]
  · intro _
    simp [sysInit, holdsLock]

theorem sysRun_mutex (oracle : Nat → String × String) (sched : List Bool) :
    ∀ (s : Sys), MutexInv s → MutexInv (sysRun oracle s sched) := by
  induction sched with
  | nil => intro s hs; exact hs
  | cons c cs ih =>
    intro s hs
    exact ih (sysStep oracle s c) (sysStep_mutex oracle s c hs)

/-- C3 counterexample: with no valid credentials stored, two concurrent
`ensure_authenticated` calls that both pass their validity check before any
capture completes perform TWO browser captures (the lock is acquired without
re-checking validity), and the two callers receive different token pairs —
refuting "exactly one CookieCapture invocation" and "all callers receive the
same resulting tokens". -/
theorem C3_exactly_one_capture_fails :
    (sysRun c3oracle sysInit c3sched).captures = 2 ∧
    ¬((sysRun c3oracle sysInit c3sched).captures = 1) ∧
    taskResult (sysRun c3oracle sysInit c3sched).t0 = some ("A1", "B1") ∧
    taskResult (sysRun c3oracle sysInit c3sched).t1 = some ("A2", "B2") ∧
    taskResult (sysRun c3oracle sysInit c3sched).t0 ≠
      taskResult (sysRun c3oracle sysInit c3sched).t1 := by
  refine ⟨by decide, by decide, by decide, by decide, by decide⟩

/-- C3 amended: the process-wide `_auth_lock` does serialize browser
captures — in every schedule of the two-task system started with absent
credentials, at most one task is ever inside the capture section, and a free
lock means no task is capturing — but a caller that found credentials
invalid does not re-check validity after acquiring the lock: in the run
where both callers check before either capture completes, two captures
happen and each caller returns the tokens of its own capture. -/
theorem C3_serialized_capture_per_caller :
    (∀ (oracle : Nat → String × String) (sched : List Bool),
      MutexInv (sysRun oracle sysInit sched)) ∧
    (sysRun c3oracle sysInit c3sched).captures = 2 ∧
    taskResult (sysRun c3oracle sysInit c3sched).t0 = some (c3oracle 0) ∧
    taskResult (sysRun c3oracle sysInit c3sched).t1 = some (c3oracle 1) := by
  refine ⟨?_, by decide, by decide, by decide⟩
  intro oracle sched
  exact sysRun_mutex oracle sched sysInit mutexInv_init

/-- The scan of one cookie jar for one exact cookie name in
`authenticate_browser`: walking the jar in order, a cookie named `n` is
taken while the accumulator is still falsy (Python
`if name == n and not found: found = cookie.get("value")`). -/
def jarScan (n : String) : List (String × String) → Option String → Option String
  | [], acc => acc
  | c :: cs, acc =>
    if c.1 == n && !(truthyS acc) then jarScan n cs (some c.2)
    else jarScan n cs acc

/-- The same scan in `_capture_cookies_via_browser`, which upper-cases the
cookie name before comparing. -/
def jarScanUpper (n : String) : List (String × String) → Option String → Option String
  | [], acc => acc
  | c :: cs, acc =>
    if c.1.toUpper == n && !(truthyS acc) then jarScanUpper n cs (some c.2)
    else jarScanUpper n cs acc

/-- The polling loop of `authenticate_browser`.  Each element of `polls` is
one `context.cookies()` read that happens before the deadline (`.error e` is
a read that raises).  The loop breaks as soon as both tokens are truthy;
an exception escapes immediately (the third component). -/
def pollLoop : List (Except String (List (String × String))) →
    Option String → Option String → Option String × Option String × Option String
  | [], s2, sw => (s2, sw, none)
  | p :: rest, s2, sw =>
    match p with
    | Except.error e => (s2, sw, some e)
    | Except.ok jar =>
      let s2' := jarScan "espn_s2" jar s2
      let sw' := jarScan "SWID" jar sw
      if truthyS s2' && truthyS sw' then (s2', sw', none)
      else pollLoop rest s2' sw'

/-- The polling loop of `_capture_cookies_via_browser`: the `while` header
additionally re-checks `espn_s2_value is None or swid_value is None`, and
the names are compared upper-cased. -/
def pollLoopServer : List (Except String (List (String × String))) →
    Option String → Option String → Option String × Option String × Option String
  | [], s2, sw => (s2, sw, none)
  | p :: rest, s2, sw =>
    if s2.isSome && sw.isSome then (s2, sw, none)
    else
      match p with
      | Except.error e => (s2, sw, some e)
      | Except.ok jar =>
        let s2' := jarScanUpper "ESPN_S2" jar s2
        let sw' := jarScanUpper "SWID" jar sw
        if truthyS s2' && truthyS sw' then (s2', sw', none)
        else pollLoopServer rest s2' sw'

/-- The outcome of one `authenticate_browser` run. -/
inductive CaptureOutcome where
  | success (espn_s2 swid : String)
  | timeout
  | pollError (e : String)
  | launchError
deriving DecidableEq, Repr

/-- One `authenticate_browser` run: its outcome and whether the browser was
launched and released.  Release happens in the loop's cleanup
(`finally: await browser.close()`), before the timeout error is raised or an
escaping exception propagates. -/
structure CaptureRun where
  outcome : CaptureOutcome
  browserLaunched : Bool
  browserClosed : Bool
deriving DecidableEq, Repr

/-- `authenticate_browser` from `auth.py` over a launch oracle and the list
of cookie reads performed before the deadline: a failed launch raises before
any browser exists; otherwise the jar is polled, the browser is closed on
every exit of the loop, and then either the tokens are returned, the escaped
exception propagates, or a timeout error is raised. -/
def authenticate_browser_run (launchOk : Bool)
    (polls : List (Except String (List (String × String)))) : CaptureRun :=
  if launchOk then
    let r := pollLoop polls none none
    match r.2.2 with
    | some e =>
      { outcome := CaptureOutcome.pollError e, browserLaunched := true, browserClosed := true }
    | none =>
      if truthyS r.1 && truthyS r.2.1 then
        { outcome := CaptureOutcome.success (r.1.getD "") (r.2.1.getD ""),
          browserLaunched := true, browserClosed := true }
      else
        { outcome := CaptureOutcome.timeout, browserLaunched := true, browserClosed := true }
  else
    { outcome := CaptureOutcome.launchError, browserLaunched := false, browserClosed := false }

/-- One `_capture_cookies_via_browser` run: the returned pair (the function
catches every exception and returns `(None, None)`), and the browser flags.
On the normal path the browser is closed by `await browser.close()`; on the
exception path it is released when the enclosing `async_playwright()` scope
shuts down before the handler returns. -/
structure ServerCaptureRun where
  result : Option String × Option String
  browserLaunched : Bool
  browserClosed : Bool
deriving DecidableEq, Repr

/-- `_capture_cookies_via_browser` from `espn_fantasy_server.py`: never
raises — a timeout simply returns whatever was found (possibly
`(None, None)`), and any exception is caught and mapped to `(None, None)`. -/
def capture_cookies_via_browser_run (launchOk : Bool)
    (polls : List (Except String (List (String × String)))) : ServerCaptureRun :=
  if launchOk then
    let r := pollLoopServer polls none none
    match r.2.2 with
    | some _ => { result := (none, none), browserLaunched := true, browserClosed := true }
    | none => { result := (r.1, r.2.1), browserLaunched := true, browserClosed := true }
  else
    { result := (none, none), browserLaunched := false, browserClosed := false }

/-- Every poll read succeeded (no `context.cookies()` exception). -/
def allOk (polls : List (Except String (List (String × String)))) : Prop :=
  ∀ p ∈ polls, ∃ jar, p = Except.ok jar

/-- The jar holds a cookie with this exact name and a non-empty value. -/
def jarHasTruthy (jar : List (String × String)) (n : String) : Prop :=
  ∃ c ∈ jar, c.1 = n ∧ c.2 ≠ ""

/-- The jar holds a cookie whose upper-cased name is `n`, with a non-empty
value. -/
def jarHasTruthyUpper (jar : List (String × String)) (n : String) : Prop :=
  ∃ c ∈ jar, c.1.toUpper = n ∧ c.2 ≠ ""

/-- No read of the run ever observes a non-empty cookie of this exact name. -/
def noTruthy (polls : List (Except String (List (String × String)))) (n : String) : Prop :=
  ∀ jar, Except.ok jar ∈ polls → ¬ jarHasTruthy jar n

/-- No read of the run ever observes a non-empty cookie of this upper-cased
name. -/
def noTruthyUpper (polls : List (Except String (List (String × String)))) (n : String) : Prop :=
  ∀ jar, Except.ok jar ∈ polls → ¬ jarHasTruthyUpper jar n

theorem jarScan_falsy (n : String) (jar : List (String × String)) :
    ∀ (acc : Option String), truthyS acc = false → ¬ jarHasTruthy jar n →
      truthyS (jarScan n jar acc) = false := by
  induction jar with
  | nil => intro acc hacc _; exact hacc
  | cons c cs ih =>
    intro acc hacc hno
    have hno' : ¬ jarHasTruthy cs n := by
      intro ⟨d, hd, hdn⟩
      exact hno ⟨d, List.mem_cons_of_mem c hd, hdn⟩
    by_cases hc : (c.1 == n && !(truthyS acc)) = true
    · have hcn : c.1 = n := by
        have := (Bool.and_eq_true _ _).mp hc
        exact beq_iff_eq.mp this.1
      have hval : c.2 = "" := by
        by_contra hne
        exact hno ⟨c, List.mem_cons_self c cs, hcn, hne⟩
      simp only [jarScan, hc, if_true]
      exact ih (some c.2) (by simp [truthyS, hval]) hno'
    · simp only [jarScan]
      rw [if_neg hc]
      exact ih acc hacc hno'

theorem jarScanUpper_falsy (n : String) (jar : List (String × String)) :
    ∀ (acc : Option String), truthyS acc = false → ¬ jarHasTruthyUpper jar n →
      truthyS (jarScanUpper n jar acc) = false := by
  induction jar with
  | nil => intro acc hacc _; exact hacc
  | cons c cs ih =>
    intro acc hacc hno
    have hno' : ¬ jarHasTruthyUpper cs n := by
      intro ⟨d, hd, hdn⟩
      exact hno ⟨d, List.mem_cons_of_mem c hd, hdn⟩
    by_cases hc : (c.1.toUpper == n && !(truthyS acc)) = true
    · have hcn : c.1.toUpper = n := by
        have := (Bool.and_eq_true _ _).mp hc
        exact beq_iff_eq.mp this.1
      have hval : c.2 = "" := by
        by_contra hne
        exact hno ⟨c, List.mem_cons_self c cs, hcn, hne⟩
      simp only [jarScanUpper, hc, if_true]
      exact ih (some c.2) (by simp [truthyS, hval]) hno'
    · simp only [jarScanUpper]
      rw [if_neg hc]
      exact ih acc hacc hno'

theorem pollLoop_no_swid (polls : List (Except String (List (String × String))))
    (hok : allOk polls) (hno : noTruthy polls "SWID") :
    ∀ (s2 sw : Option String), truthyS sw = false →
      (pollLoop polls s2 sw).2.2 = none ∧ truthyS (pollLoop polls s2 sw).2.1 = false := by
  induction polls with
  | nil => intro s2 sw hsw; exact ⟨rfl, hsw⟩
  | cons p rest ih =>
    intro s2 sw hsw
    obtain ⟨jar, hjar⟩ := hok p (List.mem_cons_self p rest)
    subst hjar
    have hswjar : ¬ jarHasTruthy jar "SWID" :=
      hno jar (List.mem_cons_self _ rest)
    have hsw' : truthyS (jarScan "SWID" jar sw) = false :=
      jarScan_falsy "SWID" jar sw hsw hswjar
    have hok' : allOk rest := fun q hq => hok q (List.mem_cons_of_mem _ hq)
    have hno' : noTruthy rest "SWID" := fun j hj => hno j (List.mem_cons_of_mem _ hj)
    simp only [pollLoop, hsw', Bool.and_false, if_false]
    exact ih hok' hno' (jarScan "espn_s2" jar s2) (jarScan "SWID" jar sw) hsw'

theorem pollLoop_no_s2 (polls : List (Except String (List (String × String))))
    (hok : allOk polls) (hno : noTruthy polls "espn_s2") :
    ∀ (s2 sw : Option String), truthyS s2 = false →
      (pollLoop polls s2 sw).2.2 = none ∧ truthyS (pollLoop polls s2 sw).1 = false := by
  induction polls with
  | nil => intro s2 sw hs2; exact ⟨rfl, hs2⟩
  | cons p rest ih =>
    intro s2 sw hs2
    obtain ⟨jar, hjar⟩ := hok p (List.mem_cons_self p rest)
    subst hjar
    have hs2jar : ¬ jarHasTruthy jar "espn_s2" :=
      hno jar (List.mem_cons_self _ rest)
    have hs2' : truthyS (jarScan "espn_s2" jar s2) = false :=
      jarScan_falsy "espn_s2" jar s2 hs2 hs2jar
    have hok' : allOk rest := fun q hq => hok q (List.mem_cons_of_mem _ hq)
    have hno' : noTruthy rest "espn_s2" := fun j hj => hno j (List.mem_cons_of_mem _ hj)
    simp only [pollLoop, hs2', Bool.false_and, if_false]
    exact ih hok' hno' (jarScan "espn_s2" jar s2) (jarScan "SWID" jar sw) hs2'

theorem pollLoopServer_no_swid (polls : List (Except String (List (String × String))))
    (hok : allOk polls) (hno : noTruthyUpper polls "SWID") :
    ∀ (s2 sw : Option String), truthyS sw = false →
      (pollLoopServer polls s2 sw).2.2 = none ∧
      truthyS (pollLoopServer polls s2 sw).2.1 = false := by
  induction polls with
  | nil => intro s2 sw hsw; exact ⟨rfl, hsw⟩
  | cons p rest ih =>
    intro s2 sw hsw
    by_cases hdone : (s2.isSome && sw.isSome) = true
    · simp only [pollLoopServer, hdone, if_true]
      exact ⟨trivial, hsw⟩
    · obtain ⟨jar, hjar⟩ := hok p (List.mem_cons_self p rest)
      subst hjar
      have hswjar : ¬ jarHasTruthyUpper jar "SWID" :=
        hno jar (List.mem_cons_self _ rest)
      have hsw' : truthyS (jarScanUpper "SWID" jar sw) = false :=
        jarScanUpper_falsy "SWID" jar sw hsw hswjar
      have hok' : allOk rest := fun q hq => hok q (List.mem_cons_of_mem _ hq)
      have hno' : noTruthyUpper rest "SWID" := fun j hj => hno j (List.mem_cons_of_mem _ hj)
      simp only [pollLoopServer, hdone, if_false, hsw', Bool.and_false]
      exact ih hok' hno' (jarScanUpper "ESPN_S2" jar s2) (jarScanUpper "SWID" jar sw) hsw'

theorem pollLoopServer_no_s2 (polls : List (Except String (List (String × String))))
    (hok : allOk polls) (hno : noTruthyUpper polls "ESPN_S2") :
    ∀ (s2 sw : Option String), truthyS s2 = false →
      (pollLoopServer polls s2 sw).2.2 = none ∧
      truthyS (pollLoopServer polls s2 sw).1 = false := by
  induction polls with
  | nil => intro s2 sw hs2; exact ⟨rfl, hs2⟩
  | cons p rest ih =>
    intro s2 sw hs2
    by_cases hdone : (s2.isSome && sw.isSome) = true
    · simp only [pollLoopServer, hdone, if_true]
      exact ⟨trivial, hs2⟩
    · obtain ⟨jar, hjar⟩ := hok p (List.mem_cons_self p rest)
      subst hjar
      have hs2jar : ¬ jarHasTruthyUpper jar "ESPN_S2" :=
        hno jar (List.mem_cons_self _ rest)
      have hs2' : truthyS (jarScanUpper "ESPN_S2" jar s2) = false :=
        jarScanUpper_falsy "ESPN_S2" jar s2 hs2 hs2jar
      have hok' : allOk rest := fun q hq => hok q (List.mem_cons_of_mem _ hq)
      have hno' : noTruthyUpper rest "ESPN_S2" := fun j hj => hno j (List.mem_cons_of_mem _ hj)
      simp only [pollLoopServer, hdone, if_false, hs2', Bool.false_and]
      exact ih hok' hno' (jarScanUpper "ESPN_S2" jar s2) (jarScanUpper "SWID" jar sw) hs2'

/-- C4 counterexample: the cited server-side capture
(`_capture_cookies_via_browser`) does NOT fail with a timeout error when the
deadline passes without both cookies: a run whose deadline expires before
any read (and likewise one whose only read raises) returns the sentinel pair
`(None, None)` normally — there is no raised error at all, the function
catches every exception. -/
theorem C4_server_timeout_returns_sentinel :
    capture_cookies_via_browser_run true [] =
      { result := (none, none), browserLaunched := true, browserClosed := true } ∧
    capture_cookies_via_browser_run true [Except.error "boom"] =
      { result := (none, none), browserLaunched := true, browserClosed := true } := by
  refine ⟨by decide, by decide⟩

/-- C4 amended: in `authenticate_browser` every run that launched the
browser closes it on every exit path, and a run whose reads all succeed but
never observe a non-empty `espn_s2` (or never a non-empty `SWID`) cookie
ends in the timeout error; the server-side `_capture_cookies_via_browser`
likewise always releases the browser it launched, but on the same condition
returns a pair that is not a valid token pair (its caller reports the
failure from the sentinel) instead of raising. -/
theorem C4_timeout_and_release :
    (∀ (launchOk : Bool) (polls : List (Except String (List (String × String)))),
      (authenticate_browser_run launchOk polls).browserLaunched = true →
      (authenticate_browser_run launchOk polls).browserClosed = true) ∧
    (∀ (polls : List (Except String (List (String × String)))),
      allOk polls → (noTruthy polls "espn_s2" ∨ noTruthy polls "SWID") →
      (authenticate_browser_run true polls).outcome = CaptureOutcome.timeout) ∧
    (∀ (launchOk : Bool) (polls : List (Except String (List (String × String)))),
      (capture_cookies_via_browser_run launchOk polls).browserLaunched = true →
      (capture_cookies_via_browser_run launchOk polls).browserClosed = true) ∧
    (∀ (polls : List (Except String (List (String × String)))),
      allOk polls → (noTruthyUpper polls "ESPN_S2" ∨ noTruthyUpper polls "SWID") →
      (truthyS (capture_cookies_via_browser_run true polls).result.1 &&
       truthyS (capture_cookies_via_browser_run true polls).result.2) = false) := by
  refine ⟨?_, ?_, ?_, ?_⟩
  · intro launchOk polls
    cases launchOk with
    | false => intro h; exact absurd h (by simp [authenticate_browser_run])
    | true =>
      intro _
      simp only [authenticate_browser_run, if_true]
      cases herr : (pollLoop polls none none).2.2 with
      | some e => rfl
      | none =>
        by_cases hb : (truthyS (pollLoop polls none none).1 &&
            truthyS (pollLoop polls none none).2.1) = true
        · simp [hb]
        · simp [hb]
  · intro polls hok hno
    simp only [authenticate_browser_run, if_true]
    cases hno with
    | inl hno =>
      obtain ⟨herr, hfal⟩ := pollLoop_no_s2 polls hok hno none none rfl
      rw [herr]
      simp [hfal]
    | inr hno =>
      obtain ⟨herr, hfal⟩ := pollLoop_no_swid polls hok hno none none rfl
      rw [herr]
      simp [hfal]
  · intro launchOk polls
    cases launchOk with
    | false => intro h; exact absurd h (by simp [capture_cookies_via_browser_run])
    | true =>
      intro _
      simp only [capture_cookies_via_browser_run, if_true]
      cases herr : (pollLoopServer polls none none).2.2 with
      | some e => rfl
      | none => rfl
  · intro polls hok hno
    simp only [capture_cookies_via_browser_run, if_true]
    cases hno with
    | inl hno =>
      obtain ⟨herr, hfal⟩ := pollLoopServer_no_s2 polls hok hno none none rfl
      rw [herr]
      simp [hfal]
    | inr hno =>
      obtain ⟨herr, hfal⟩ := pollLoopServer_no_swid polls hok hno none none rfl
      rw [herr]
      simp [hfal]
